import Mathlib

/-!
Verification of the NodeVFS sandboxed filesystem backend
(`src/workspaces/vfs-node/src/index.ts`).

The development shallowly embeds the POSIX path arithmetic used by the
backend (`path.join`, `path.parse`, `path.resolve`, `path.relative`,
`path.sep = '/'`), the error-normalisation function `wrapVFSErr`, the
jail-enforcing resolver `_validatePath` / `_fsPath`, and the operations
the claims are about.  The host filesystem is modelled as a record of
pure functions (`readlink`, `stat`, `realpath`) returning discriminated
results, mirroring how the TypeScript code observes it.
-/

deriving instance DecidableEq for Except

namespace SocketVFS

/-! ## POSIX path helpers (model of `node:path` on POSIX, `path.sep = '/'`) -/

/-- Splits a character list on `'/'`, keeping empty fields: model of
JavaScript `s.split('/')` (which yields `['']` on the empty string). -/
def splitSep : List Char → List (List Char)
  | [] => [[]]
  | c :: cs =>
    let r := splitSep cs
    if c = '/' then [] :: r
    else
      match r with
      | [] => [[c]]
      | h :: t => (c :: h) :: t

/-- Model of `s.split(path.sep)`. -/
def pathSplit (s : String) : List String :=
  (splitSep s.toList).map List.asString

/-- Model of `path.isAbsolute` on POSIX. -/
def isAbsolute (s : String) : Bool :=
  s.toList.head? = some '/'

/-- Stack-based normalisation of path components, as done by
`path.posix.normalize` for an absolute path: empty and `.` components
vanish, `..` pops (and is dropped when already at the root). -/
def normComps : List String → List String → List String
  | [], acc => acc.reverse
  | c :: rest, acc =>
    if c = "" ∨ c = "." then normComps rest acc
    else if c = ".." then normComps rest (acc.drop 1)
    else normComps rest (c :: acc)

/-- Reassembles normalised components of an absolute path. -/
def normAbs (comps : List String) : String :=
  "/" ++ String.intercalate "/" (normComps comps [])

/-- Model of `path.join p q` for an absolute `p` (used by the source only
as `path.join(p, '..')`): concatenate and normalise. -/
def pathJoin (p q : String) : String :=
  normAbs (pathSplit p ++ pathSplit q)

/-- Model of `path.resolve dir rel` for an absolute `dir`. -/
def pathResolve (dir rel : String) : String :=
  if isAbsolute rel then normAbs (pathSplit rel)
  else normAbs (pathSplit dir ++ pathSplit rel)

/-- Drops trailing `'/'` characters. -/
def stripTrailing (l : List Char) : List Char :=
  (l.reverse.dropWhile (fun c => c = '/')).reverse

/-- The `root`/`dir`/`base` fields of `path.parse`. -/
structure ParsedPath where
  root : String
  dir : String
  base : String
  deriving DecidableEq, Repr

/-- Model of `path.parse` (POSIX), restricted to the fields the source
reads (`root`, `dir`, `base`). -/
def pathParse (t : String) : ParsedPath :=
  let root := if isAbsolute t then "/" else ""
  let l := stripTrailing t.toList
  if l = [] then ⟨root, root, ""⟩
  else
    let baseR := l.reverse.takeWhile (fun c => c ≠ '/')
    let base := baseR.reverse.asString
    if baseR.length = l.length then ⟨root, root, base⟩
    else
      let dirChars := l.take (l.length - baseR.length - 1)
      ⟨root, if dirChars = [] then root else dirChars.asString, base⟩

/-- Model of `path.parse s |>.root` (`this._root` in the source). -/
def parseRoot (s : String) : String :=
  if isAbsolute s then "/" else ""

/-- Model of `path.dirname` (POSIX) for the absolute paths the backend
feeds it. -/
def dirname (s : String) : String :=
  let l := stripTrailing s.toList
  if l = [] then "/"
  else
    let baseR := l.reverse.takeWhile (fun c => c ≠ '/')
    if baseR.length = l.length then "."
    else
      let d := l.take (l.length - baseR.length - 1)
      if d = [] then "/" else d.asString

/-- Drops the longest common leading run of equal components of two
component lists (helper for `path.relative`). -/
def dropCommonPre : List String → List String → List String × List String
  | a :: as, b :: bs => if a = b then dropCommonPre as bs else (a :: as, b :: bs)
  | as, bs => (as, bs)

/-- Model of `path.relative f t` (POSIX) for absolute `f`, `t`. -/
def pathRelative (f t : String) : String :=
  let fc := normComps (pathSplit f) []
  let tc := normComps (pathSplit t) []
  let (fr, tr) := dropCommonPre fc tc
  String.intercalate "/" (fr.map (fun _ => "..") ++ tr)

/-! ## Error model (`wrapVFSErr` and friends) -/

/-- A host (Node.js) error as the source observes it: its `name`, its
`message` and its optional `code` property. -/
structure JSErr where
  name : String
  message : String
  code : Option String
  deriving DecidableEq, Repr

/-- A canonical `VFSError` as constructed by the source:
`new VFSError(message, { code, cause })`. -/
structure VErr where
  message : String
  code : String
  cause : Option JSErr
  deriving DecidableEq, Repr

/-- A thrown JavaScript value as far as the source discriminates it:
an actual `VFSError` instance, another `Error`, or a non-`Error` value
(kept as its string rendering `${err}`). -/
inductive Thrown where
  | vfs (v : VErr)
  | js (e : JSErr)
  | other (s : String)
  deriving DecidableEq, Repr

/-- The `allowedErrorTypes` set of the source. -/
def allowedErrorTypes : List String :=
  ["ENOENT", "ENOSYS", "EISDIR", "ENOTDIR", "ENOTEMPTY", "EPERM",
   "EMFILE", "ENFILE", "EBADF", "EINVAL", "EEXIST", "EUNKNOWN"]

/-- Strips a leading `"<code>: "` from `msg` exactly as
`message.slice(code.length + 2)` guarded by `startsWith` does. -/
def stripCode (code msg : String) : String :=
  if (code ++ ": ").toList.isPrefixOf msg.toList then
    (msg.toList.drop (code.toList.length + 2)).asString
  else msg

/-- Model of `wrapVFSErr`.  A non-`Error` value becomes a bare
`VFSError`; its default code is modelled from the spec (§4.2: errors
outside the canonical set classify as unknown, `EUNKNOWN`), since the
`VFSError` class itself lives in the external `@socketsecurity/vfs`
package. -/
def wrapVFSErr : Thrown → Thrown
  | .other s => .vfs ⟨s, "EUNKNOWN", none⟩
  | .vfs v => .vfs v
  | .js e =>
    if e.name = "AbortError" then .js e
    else if e.name = "VFSError" then .js e
    else
      match e.code with
      | some c =>
        if c ∈ allowedErrorTypes then .vfs ⟨stripCode c e.message, c, some e⟩
        else .vfs ⟨e.message, "EUNKNOWN", some e⟩
      | none => .vfs ⟨e.message, "EUNKNOWN", some e⟩

/-! ## Host filesystem model -/

/-- Outcome of `fs.promises.readlink`: either the stored link target, or
a host error (a non-symlink existing entry fails with code `EINVAL`, a
missing entry with `ENOENT`). -/
inductive ReadlinkRes where
  | link (target : String)
  | fail (e : JSErr)
  deriving DecidableEq, Repr

/-- The host filesystem operations observed by the code under
verification, as pure functions of the queried real path. -/
structure FS where
  readlink : String → ReadlinkRes
  stat : String → Option JSErr
  realpath : String → Except JSErr String

/-! ## Jail-enforcing resolution (`_locOK`, `_validatePath`, `_fsPath`) -/

/-- Model of `NodeVFS._locOK`:
`p.startsWith(base) && (p.length === base.length || p[base.length] === path.sep)`. -/
def locOK (base p : String) : Bool :=
  base.toList.isPrefixOf p.toList &&
    (p.toList.length == base.toList.length ||
      p.toList.get? base.toList.length == some '/')

/-- Result of scanning segments up to the next symlink: either the loop
finished (with the final `_locOK` gate applied, or an error), or a
symlink was encountered at path `child` with stored target `target`,
pending caller segments `rest` and running path `p`. -/
inductive SeekOut where
  | done (r : Except Thrown (Option String))
  | hop (child target : String) (rest : List String) (p : String)
  deriving Repr

/-- The symlink-free part of the `_validatePath` loop: consumes work-list
segments until the list is exhausted (then the final
`return this._locOK(p) ? p : null` runs) or `readlink` reports a
symlink.  The `catch` branch of the source maps to the `.fail` arm:
`EINVAL` (not a symlink) continues with `p = child`, `ENOENT` on the
last segment is tolerated, anything else is thrown through
`wrapVFSErr`. -/
def seek (fs : FS) (vb : String) : List String → String → Bool → SeekOut
  | [], p, _strict => .done (if locOK vb p then .ok (some p) else .ok none)
  | seg :: rest, p, strict =>
    if seg = ".." then
      let p2 := pathJoin p ".."
      if strict = true ∧ locOK vb p2 = false then .done (.ok none)
      else seek fs vb rest p2 strict
    else
      let child := if seg = "" ∨ seg = "." then p else p ++ "/" ++ seg
      match fs.readlink child with
      | .link t => .hop child t rest p
      | .fail e =>
        if e.code = some "EINVAL" then seek fs vb rest child strict
        else if e.code = some "ENOENT" ∧ rest = [] then seek fs vb rest child strict
        else .done (.error (wrapVFSErr (.js e)))

/-- The symlink-following part of the `_validatePath` loop, with the hop
budget `hl` counting down from 40 (the source's `++depth > 40` guard
fires exactly when the budget is exhausted; the guard runs before the
`!thruLast` final-link break, as in the source).  On substitution the
source sets `i = 0` and the `for` loop update `++i` immediately runs, so
the element at index 0 of the substituted work-list is never processed;
this is modelled by `List.drop 1`.  (For an absolute target that element
is the empty head of `parsed.dir.split(path.sep)`; for a relative target
it is the target's first component.)  The second result component counts
the symlink hops the resolution followed, including a hop that overflows
the budget. -/
def follow (fs : FS) (vb : String) (tl : Bool) :
    Nat → List String → String → Bool → Except Thrown (Option String) × Nat
  | 0, work, p, strict =>
    match seek fs vb work p strict with
    | .done r => (r, 0)
    | .hop _ _ _ _ => (.error (.vfs ⟨"too many symlinks", "EINVAL", none⟩), 1)
  | hl' + 1, work, p, strict =>
    match seek fs vb work p strict with
    | .done r => (r, 0)
    | .hop child t rest pNow =>
      if tl = false ∧ rest = [] then
        ((if locOK vb child then .ok (some child) else .ok none), 1)
      else if isAbsolute t then
        let pr := pathParse t
        let out := follow fs vb tl hl'
          ((pathSplit pr.dir ++ [pr.base] ++ rest).drop 1) pr.root false
        (out.1, out.2 + 1)
      else
        let out := follow fs vb tl hl' ((pathSplit t ++ rest).drop 1) pNow true
        (out.1, out.2 + 1)

/-- Model of `NodeVFS._validatePath src thruLast` (running path starts at
the base, `strict` starts `true`, `depth` starts `0`, so 40 hops remain),
paired with the number of symlink hops followed. -/
def validatePath (vb : String) (fs : FS) (src : List String) (tl : Bool) :
    Except Thrown (Option String) × Nat :=
  follow fs vb tl 40 src vb true

/-- Model of `NodeVFS._fsPath`: the empty segment list short-circuits to
the base directory; a `null` from `_validatePath` becomes the
invalid-argument error `path outside base directory`. -/
def fsPathM (vb : String) (fs : FS) (src : List String) (tl : Bool) :
    Except Thrown String :=
  if src = [] then .ok vb
  else
    match (validatePath vb fs src tl).1 with
    | .ok (some p) => .ok p
    | .ok none => .error (.vfs ⟨"path outside base directory", "EINVAL", none⟩)
    | .error e => .error e

/-! ## Virtual-path rendering and backend operations -/

/-- Modelled from the spec: `vfsPath.join` of the external
`@socketsecurity/vfs` package, which renders an absolute-style (`/...`)
or relative-style (`./...`) virtual path from the given first component
and the split relative parts (§4.5: "an absolute real path is rendered
relative to BaseDirectory as either an absolute-style (`/...`) or
relative-style (`./...`) virtual path"). -/
def vfsJoin (absolute : Bool) (parts : List String) : String :=
  let ps := parts.filter (fun s => decide (s ≠ "" ∧ s ≠ "."))
  if absolute then "/" ++ String.intercalate "/" ps
  else if ps = [] then "." else "./" ++ String.intercalate "/" ps

/-- Model of `NodeVFS._relPath`: fails `ENOSYS` when the real path's
volume root differs from the base directory's, otherwise renders
`vfsPath.join(absolute ? '/' : '.', ...path.relative(base, src).split(sep))`. -/
def relPathM (vb : String) (src : String) (absolute : Bool) : Except Thrown String :=
  if parseRoot src ≠ parseRoot vb then
    .error (.vfs ⟨"cannot resolve filepath outside filesystem root", "ENOSYS", none⟩)
  else .ok (vfsJoin absolute (pathSplit (pathRelative vb src)))

/-- The `try` body of `NodeVFS._exists`: full resolution through
`_fsPath`, then `fs.promises.stat` wrapped by `withVFSErr`. -/
def statPipeline (vb : String) (fs : FS) (file : List String) : Except Thrown Unit :=
  match fsPathM vb fs file true with
  | .error e => .error e
  | .ok p =>
    match fs.stat p with
    | none => .ok ()
    | some e => .error (wrapVFSErr (.js e))

/-- The `err instanceof VFSError && err.code === 'ENOENT'` test of
`NodeVFS._exists`. -/
def isVFSNotFound : Thrown → Bool
  | .vfs v => v.code == "ENOENT"
  | _ => false

/-- Model of `NodeVFS._exists`: `true` on success, `false` exactly when
the caught error is a canonical not-found, rethrow otherwise. -/
def existsM (vb : String) (fs : FS) (file : List String) : Except Thrown Bool :=
  match statPipeline vb fs file with
  | .ok _ => .ok true
  | .error e => if isVFSNotFound e then .ok false else .error e

/-- Model of `NodeVFS._removeFile`: the real path handed to
`fs.promises.unlink`, i.e. `_fsPath(file, false)` (final symlink not
followed). -/
def removeFileCall (vb : String) (fs : FS) (file : List String) : Except Thrown String :=
  fsPathM vb fs file false

/-- Model of `NodeVFS._readSymlink`: resolve without following the final
symlink, read the link, resolve the stored target against the link's
containing directory, and render it as an absolute-style virtual path. -/
def readSymlinkM (vb : String) (fs : FS) (link : List String) : Except Thrown String :=
  match fsPathM vb fs link false with
  | .error e => .error e
  | .ok fsLoc =>
    match fs.readlink fsLoc with
    | .link result => relPathM vb (pathResolve (dirname fsLoc) result) true
    | .fail e => .error (wrapVFSErr (.js e))

/-- Model of `NodeVFS._realPath`: resolve through the final symlink,
ask the host for the canonical path, and render it as an absolute-style
virtual path. -/
def realPathM (vb : String) (fs : FS) (link : List String) : Except Thrown String :=
  match fsPathM vb fs link true with
  | .error e => .error e
  | .ok p =>
    match fs.realpath p with
    | .ok result => relPathM vb result true
    | .error e => .error (wrapVFSErr (.js e))

/-- Model of `NodeVFS._symlink`: the `(target, path)` argument pair
handed to `fs.promises.symlink` — the stored target is the joined
caller segments, prefixed by the base directory plus a separator exactly
when the caller asked for an absolute-style target; only the link path
goes through `_fsPath`. -/
def symlinkCall (vb : String) (fs : FS) (target link : List String) (relative : Bool) :
    Except Thrown (String × String) :=
  match fsPathM vb fs link true with
  | .error e => .error e
  | .ok lp =>
    .ok ((if relative then "" else vb ++ "/") ++ String.intercalate "/" target, lp)

/-! ## Watch fan-out and subscription lifecycle -/

/-- One registration's treatment of one native event in
`NodeVFS._onWatchEvent`: the predicate is tried on the absolute form
first, then on the relative form, and the callback fires at most once,
with the first matching form and the change type. -/
def fireFor (isMatch : String → Bool) (abs rel ty : String) : Option (String × String) :=
  if isMatch abs then some (abs, ty)
  else if isMatch rel then some (rel, ty)
  else none

/-- Model of the per-event fan-out loop of `NodeVFS._onWatchEvent`: the
event path is rendered in absolute and relative style, and every
registration receives at most one notification.  The result list is
aligned with the registration list. -/
def onWatchEventFires (vb : String) (cbs : List (String → Bool)) (evPath ty : String) :
    Except Thrown (List (Option (String × String))) :=
  match relPathM vb evPath true, relPathM vb evPath false with
  | .ok abs, .ok rel => .ok (cbs.map fun cb => fireFor cb abs rel ty)
  | .error e, _ => .error e
  | _, .error e => .error e

/-- The watch bookkeeping of a Backend instance: the identity-keyed
registration set (keys only) and whether the shared native subscription
(`this._watcher`) currently exists. -/
structure WatchState where
  callbacks : List Nat
  watcher : Bool
  deriving DecidableEq, Repr

/-- Model of `NodeVFS._watch`: the entry joins the set, and
`if (!this._watcher)` the shared subscription is created — so the
watcher exists afterwards in either case. -/
def watchAdd (s : WatchState) (id : Nat) : WatchState :=
  { callbacks := if id ∈ s.callbacks then s.callbacks else s.callbacks ++ [id],
    watcher := true }

/-- Model of the unsubscribe closure returned by `NodeVFS._watch`: the
entry leaves the set, and if the set became empty the shared
subscription is torn down. -/
def watchRemove (s : WatchState) (id : Nat) : WatchState :=
  let cbs := s.callbacks.filter (fun x => x ≠ id)
  { callbacks := cbs, watcher := if cbs = [] then false else s.watcher }

/-- The subscription invariant: the native subscription exists iff the
registration set is non-empty. -/
def watchInvariant (s : WatchState) : Prop :=
  s.watcher = true ↔ s.callbacks ≠ []

instance (s : WatchState) : Decidable (watchInvariant s) := by
  unfold watchInvariant; infer_instance

/-! ## Concrete host filesystems used by witnesses -/

/-- A host ENOENT error as Node reports it. -/
def enoent : JSErr := ⟨"Error", "ENOENT: no such file or directory", some "ENOENT"⟩

/-- A host EINVAL error as `readlink` reports it on a non-symlink. -/
def einvalNotLink : JSErr := ⟨"Error", "EINVAL: invalid argument", some "EINVAL"⟩

/-- A filesystem with no entries at all. -/
def fsNone : FS :=
  ⟨fun _ => .fail enoent, fun _ => none, fun p => .ok p⟩

/-- Scenario B of the spec: `/root/link` is a symlink to `sub`. -/
def fsScenB : FS :=
  ⟨fun p => if p = "/root/link" then .link "sub" else .fail enoent,
   fun _ => none, fun p => .ok p⟩

/-- A self-loop: `/root/a` is a symlink to `./a`. -/
def fsLoop : FS :=
  ⟨fun p => if p = "/root/a" then .link "./a" else .fail enoent,
   fun _ => none, fun p => .ok p⟩

/-- A symlink `/root/x` to `./sub`, where `/root/sub` is a real
directory entry (so `readlink` on it fails `EINVAL`). -/
def fsLinkX : FS :=
  ⟨fun p => if p = "/root/x" then .link "./sub"
            else if p = "/root/sub" then .fail einvalNotLink
            else .fail enoent,
   fun _ => none, fun p => .ok p⟩

/-- A symlink `/root/lnk` whose stored target `../..` escapes the jail. -/
def fsEscape : FS :=
  ⟨fun p => if p = "/root/lnk" then .link "../.." else .fail enoent,
   fun _ => none, fun p => .ok p⟩

example : fsPathM "/root" fsNone ["a"] true = .ok "/root/a" := by decide
example : removeFileCall "/root" fsLinkX ["x"] = .ok "/root/x" := by decide
example : readSymlinkM "/root" fsLinkX ["x"] = .ok "/sub" := by decide
example : realPathM "/root" fsLinkX ["x"] = .ok "/sub" := by decide
example : fsPathM "/root" fsEscape ["lnk"] true =
    .error (.vfs ⟨"path outside base directory", "EINVAL", none⟩) := by decide
example : symlinkCall "/root" fsEscape ["..", ".."] ["l2"] true =
    .ok ("../..", "/root/l2") := by decide
example : relPathM "/root" "/root/x" true = .ok "/x" := by decide
example : relPathM "/root" "/root/x" false = .ok "./x" := by decide
example : (validatePath "/root" fsScenB ["link", "file.txt"] true).1 =
    .ok (some "/root/file.txt") := by decide
example : validatePath "/root" fsLoop ["a"] true =
    (.error (.vfs ⟨"too many symlinks", "EINVAL", none⟩), 41) := by decide
example : fsPathM "/root" fsNone [".."] true =
    .error (.vfs ⟨"path outside base directory", "EINVAL", none⟩) := by decide

/-! ## Containment lemmas -/

theorem locOK_self (s : String) : locOK s s = true := by
  simp [locOK, List.isPrefixOf_iff_prefix]

theorem locOK_spec (b p : String) (h : locOK b p = true) :
    p = b ∨ ∃ rest, p.toList = b.toList ++ rest ∧
      p.toList.get? b.toList.length = some '/' := by
  unfold locOK at h
  rw [Bool.and_eq_true] at h
  obtain ⟨h1, h2⟩ := h
  rw [List.isPrefixOf_iff_prefix] at h1
  obtain ⟨t, ht⟩ := h1
  rw [Bool.or_eq_true] at h2
  rcases h2 with hlen | hch
  · left
    rw [beq_iff_eq] at hlen
    have hl2 := congrArg List.length ht
    rw [List.length_append] at hl2
    have hlt : t.length = 0 := by omega
    rw [List.length_eq_zero] at hlt
    subst hlt
    apply String.ext
    have hbp : b.toList = p.toList := by simpa using ht
    simpa [String.toList] using hbp.symm
  · right
    rw [beq_iff_eq] at hch
    exact ⟨t, ht.symm, hch⟩

theorem seek_done_some_locOK (fs : FS) (vb : String) :
    ∀ (work : List String) (p : String) (strict : Bool) (R : String),
      seek fs vb work p strict = .done (.ok (some R)) → locOK vb R = true := by
  intro work
  induction work with
  | nil =>
    intro p strict R h
    simp only [seek] at h
    split at h
    · simp only [SeekOut.done.injEq, Except.ok.injEq, Option.some.injEq] at h
      subst h
      assumption
    · simp at h
  | cons seg rest ih =>
    intro p strict R h
    simp only [seek] at h
    split at h
    · split at h
      · simp at h
      · exact ih _ _ _ h
    · split at h
      · simp at h
      · split at h
        · exact ih _ _ _ h
        · split at h
          · exact ih _ _ _ h
          · simp at h

theorem follow_fst_some_locOK (fs : FS) (vb : String) (tl : Bool) :
    ∀ (hl : Nat) (work : List String) (p : String) (strict : Bool) (R : String),
      (follow fs vb tl hl work p strict).1 = .ok (some R) → locOK vb R = true := by
  intro hl
  induction hl with
  | zero =>
    intro work p strict R h
    simp only [follow] at h
    split at h
    · rename_i r heq
      exact seek_done_some_locOK fs vb work p strict R
        (by rw [heq]; exact congrArg SeekOut.done h)
    · simp at h
  | succ hl' ih =>
    intro work p strict R h
    simp only [follow] at h
    split at h
    · rename_i r heq
      exact seek_done_some_locOK fs vb work p strict R
        (by rw [heq]; exact congrArg SeekOut.done h)
    · split at h
      · split at h
        · simp only [Except.ok.injEq, Option.some.injEq] at h
          subst h
          assumption
        · simp at h
      · split at h
        · exact ih _ _ _ _ h
        · exact ih _ _ _ _ h

theorem validatePath_some_locOK (vb : String) (fs : FS) (src : List String)
    (tl : Bool) (R : String) (h : (validatePath vb fs src tl).1 = .ok (some R)) :
    locOK vb R = true :=
  follow_fst_some_locOK fs vb tl 40 src vb true R h

/-! ## Hop-counting lemmas -/

theorem follow_snd_le (fs : FS) (vb : String) (tl : Bool) :
    ∀ (hl : Nat) (work : List String) (p : String) (strict : Bool),
      (follow fs vb tl hl work p strict).2 ≤ hl + 1 := by
  intro hl
  induction hl with
  | zero =>
    intro work p strict
    cases hseek : seek fs vb work p strict with
    | done r => simp [follow, hseek]
    | hop child t rest pNow => simp [follow, hseek]
  | succ hl' ih =>
    intro work p strict
    cases hseek : seek fs vb work p strict with
    | done r => simp [follow, hseek]
    | hop child t rest pNow =>
      simp only [follow, hseek]
      by_cases hb : tl = false ∧ rest = []
      · simp only [if_pos hb]
        omega
      · simp only [if_neg hb]
        by_cases ha : isAbsolute t = true
        · simp only [if_pos ha]
          have := ih ((pathSplit (pathParse t).dir ++ [(pathParse t).base] ++ rest).drop 1)
            (pathParse t).root false
          omega
        · simp only [if_neg ha]
          have := ih ((pathSplit t ++ rest).drop 1) pNow true
          omega

theorem follow_snd_gt (fs : FS) (vb : String) (tl : Bool) :
    ∀ (hl : Nat) (work : List String) (p : String) (strict : Bool),
      hl < (follow fs vb tl hl work p strict).2 →
      (follow fs vb tl hl work p strict).1 =
        .error (.vfs ⟨"too many symlinks", "EINVAL", none⟩) := by
  intro hl
  induction hl with
  | zero =>
    intro work p strict h
    cases hseek : seek fs vb work p strict with
    | done r => simp [follow, hseek] at h
    | hop child t rest pNow => simp [follow, hseek]
  | succ hl' ih =>
    intro work p strict h
    cases hseek : seek fs vb work p strict with
    | done r => simp [follow, hseek] at h
    | hop child t rest pNow =>
      simp only [follow, hseek] at h ⊢
      by_cases hb : tl = false ∧ rest = []
      · simp only [if_pos hb] at h
        omega
      · simp only [if_neg hb] at h ⊢
        by_cases ha : isAbsolute t = true
        · simp only [if_pos ha] at h ⊢
          exact ih _ _ _ (by omega)
        · simp only [if_neg ha] at h ⊢
          exact ih _ _ _ (by omega)

/-! ## Claim theorems -/

/-- C1: whenever `_fsPath` returns a real path `R`, `R` equals the base
directory or has it as a strict separator-bounded prefix (the character
right after the prefix is the separator); and whenever `_validatePath`
ends with a running path outside that set (`null`), `_fsPath` fails with
the canonical invalid-argument error, so an out-of-jail path is never
returned. -/
theorem c1_jail_containment (vb : String) (fs : FS) (src : List String) (tl : Bool) (R : String) :
    (fsPathM vb fs src tl = .ok R →
      (R = vb ∨ ∃ rest, R.toList = vb.toList ++ rest ∧
        R.toList.get? vb.toList.length = some '/')) ∧
    (src ≠ [] → (validatePath vb fs src tl).1 = .ok none →
      fsPathM vb fs src tl = .error (.vfs ⟨"path outside base directory", "EINVAL", none⟩)) := by
  constructor
  · intro h
    by_cases hsrc : src = []
    · subst hsrc
      simp only [fsPathM, if_pos] at h
      simp only [Except.ok.injEq] at h
      left
      exact h.symm
    · unfold fsPathM at h
      rw [if_neg hsrc] at h
      cases hv : (validatePath vb fs src tl).1 with
      | ok o =>
        cases o with
        | some p =>
          rw [hv] at h
          simp only [Except.ok.injEq] at h
          cases h
          exact locOK_spec vb R (validatePath_some_locOK vb fs src tl R hv)
        | none => rw [hv] at h; simp at h
      | error e => rw [hv] at h; simp at h
  · intro hsrc hnone
    unfold fsPathM
    rw [if_neg hsrc, hnone]

theorem c1_jail_containment_witness :
    "/root/a" = "/root" ∨ ∃ rest, "/root/a".toList = "/root".toList ++ rest ∧
      "/root/a".toList.get? "/root".toList.length = some '/' :=
  (c1_jail_containment "/root" fsNone ["a"] true "/root/a").1 (by decide)

/-- C2 (counterexample to the spec's Scenario B): with base `/root` and
the symlink `/root/link` → `sub`, resolving `["link", "file.txt"]`
yields `/root/file.txt` — the first component of the relative link
target is dropped, because the substitution sets the loop index to `0`
and the `for` update `++i` immediately skips the element at index 0 —
instead of the `/root/sub/file.txt` the spec states. -/
theorem c2_relative_target_head_dropped :
    (validatePath "/root" fsScenB ["link", "file.txt"] true).1 =
      .ok (some "/root/file.txt") ∧
    ¬ (validatePath "/root" fsScenB ["link", "file.txt"] true).1 =
      .ok (some "/root/sub/file.txt") := by decide

/-- C3: a resolution call follows at most 41 hops in total (so it always
terminates — the model is a total function), and any resolution whose
hop count exceeds the bound 40 fails with the canonical invalid-argument
error `too many symlinks`.  The counter is an argument local to one
`_validatePath` call, never shared across calls. -/
theorem c3_hop_limit (vb : String) (fs : FS) (src : List String) (tl : Bool) :
    (validatePath vb fs src tl).2 ≤ 41 ∧
    (40 < (validatePath vb fs src tl).2 →
      (validatePath vb fs src tl).1 =
        .error (.vfs ⟨"too many symlinks", "EINVAL", none⟩)) :=
  ⟨follow_snd_le fs vb tl 40 src vb true,
   fun h => follow_snd_gt fs vb tl 40 src vb true h⟩

theorem c3_hop_limit_witness :
    (validatePath "/root" fsLoop ["a"] true).1 =
      .error (.vfs ⟨"too many symlinks", "EINVAL", none⟩) :=
  (c3_hop_limit "/root" fsLoop ["a"] true).2 (by decide)

/-- C10: resolving the empty segment list through `_fsPath` succeeds and
returns the base directory itself, for every host filesystem (so no host
access can influence the result), every base and both final-symlink
modes. -/
theorem c10_empty_segments_base (vb : String) (fs : FS) (tl : Bool) :
    fsPathM vb fs [] tl = .ok vb := by
  simp [fsPathM]

/-- C4: `wrapVFSErr` passes cancellation (`AbortError`) and
already-canonical (`VFSError`) errors through unchanged; any other error
with a host code in the canonical set keeps that code and has a leading
`"<code>: "` stripped from its message; any other error is classified
unknown (`EUNKNOWN`) with its message preserved; the original error is
chained as the cause. -/
theorem c4_wrap_vfs_err (v : VErr) (e : JSErr) :
    (wrapVFSErr (.vfs v) = .vfs v) ∧
    (e.name = "AbortError" → wrapVFSErr (.js e) = .js e) ∧
    (e.name ≠ "AbortError" → e.name ≠ "VFSError" →
      ((∀ c, e.code = some c → c ∈ allowedErrorTypes →
          wrapVFSErr (.js e) = .vfs ⟨stripCode c e.message, c, some e⟩) ∧
       (∀ c, e.code = some c → c ∉ allowedErrorTypes →
          wrapVFSErr (.js e) = .vfs ⟨e.message, "EUNKNOWN", some e⟩) ∧
       (e.code = none → wrapVFSErr (.js e) = .vfs ⟨e.message, "EUNKNOWN", some e⟩))) := by
  refine ⟨rfl, ?_, ?_⟩
  · intro h
    simp [wrapVFSErr, h]
  · intro h1 h2
    refine ⟨?_, ?_, ?_⟩
    · intro c hc hmem
      simp [wrapVFSErr, h1, h2, hc, hmem]
    · intro c hc hmem
      simp [wrapVFSErr, h1, h2, hc, hmem]
    · intro hc
      simp [wrapVFSErr, h1, h2, hc]

theorem c4_wrap_vfs_err_witness :
    wrapVFSErr (.js ⟨"Error", "ENOENT: no such file or directory, stat '/root/x'",
        some "ENOENT"⟩) =
      .vfs ⟨"no such file or directory, stat '/root/x'", "ENOENT",
        some ⟨"Error", "ENOENT: no such file or directory, stat '/root/x'",
          some "ENOENT"⟩⟩ := by
  have h := ((c4_wrap_vfs_err ⟨"", "", none⟩
      ⟨"Error", "ENOENT: no such file or directory, stat '/root/x'", some "ENOENT"⟩).2.2
      (by decide) (by decide)).1 "ENOENT" rfl (by decide)
  rw [h]
  decide

/-- C5: `_exists` returns `false` exactly when the resolve-then-stat
pipeline fails with a canonical not-found error; a failure with any
other error is re-raised unchanged; success yields `true`. -/
theorem c5_exists_not_found (vb : String) (fs : FS) (file : List String) :
    (existsM vb fs file = .ok false ↔
      ∃ e, statPipeline vb fs file = .error e ∧ isVFSNotFound e = true) ∧
    (∀ e, statPipeline vb fs file = .error e → isVFSNotFound e = false →
      existsM vb fs file = .error e) ∧
    (∀ u, statPipeline vb fs file = .ok u → existsM vb fs file = .ok true) := by
  refine ⟨⟨?_, ?_⟩, ?_, ?_⟩
  · intro h
    unfold existsM at h
    cases hp : statPipeline vb fs file with
    | ok u => rw [hp] at h; simp at h
    | error e =>
      rw [hp] at h
      by_cases hn : isVFSNotFound e = true
      · exact ⟨e, rfl, hn⟩
      · simp [hn] at h
  · rintro ⟨e, hp, hn⟩
    unfold existsM
    rw [hp]
    simp [hn]
  · intro e hp hn
    unfold existsM
    rw [hp]
    simp [hn]
  · intro u hp
    unfold existsM
    rw [hp]

theorem c5_exists_not_found_witness :
    existsM "/root" fsNone [".."] =
      .error (.vfs ⟨"path outside base directory", "EINVAL", none⟩) :=
  (c5_exists_not_found "/root" fsNone [".."]).2.1
    (.vfs ⟨"path outside base directory", "EINVAL", none⟩) (by decide) (by decide)

/-- C8: the Backend's watch bookkeeping satisfies, at every reachable
quiescent state, "subscription exists iff the registration set is
non-empty": it holds initially, is preserved by registration and by
unsubscription, the 0-to-1 registration transition creates the (single,
boolean-modelled) subscription, and removing the last registration tears
it down. -/
theorem c8_watcher_lifecycle :
    watchInvariant ⟨[], false⟩ ∧
    (∀ s k, watchInvariant s → watchInvariant (watchAdd s k)) ∧
    (∀ s k, watchInvariant s → watchInvariant (watchRemove s k)) ∧
    (∀ s k, (watchAdd s k).watcher = true) ∧
    (∀ s k, watchInvariant s → (watchRemove s k).callbacks = [] →
      (watchRemove s k).watcher = false) := by
  refine ⟨by decide, ?_, ?_, fun s k => rfl, ?_⟩
  · intro s k _h
    show true = true ↔ (if k ∈ s.callbacks then s.callbacks else s.callbacks ++ [k]) ≠ []
    constructor
    · intro _
      by_cases hm : k ∈ s.callbacks
      · rw [if_pos hm]
        exact List.ne_nil_of_mem hm
      · rw [if_neg hm]
        simp
    · intro _
      rfl
  · intro s k h
    show (if s.callbacks.filter (fun x => x ≠ k) = [] then false else s.watcher) = true ↔
      s.callbacks.filter (fun x => x ≠ k) ≠ []
    by_cases hc : s.callbacks.filter (fun x => x ≠ k) = []
    · rw [if_pos hc, hc]
      simp
    · rw [if_neg hc]
      constructor
      · intro _
        exact hc
      · intro _
        refine h.mpr (fun hnil => hc ?_)
        rw [hnil]
        rfl
  · intro s k _h hcb
    have hcb' : s.callbacks.filter (fun x => x ≠ k) = [] := hcb
    show (if s.callbacks.filter (fun x => x ≠ k) = [] then false else s.watcher) = false
    rw [if_pos hcb']

theorem c8_watcher_lifecycle_witness :
    watchInvariant (watchAdd ⟨[], false⟩ 0) :=
  c8_watcher_lifecycle.2.1 ⟨[], false⟩ 0 (by decide)

/-- C9: `_symlink` hands the host exactly the joined caller target
segments — unchanged for a relative target, prefixed with the base
directory plus a separator for an absolute-style target — with only the
link path resolved; no containment check is applied to the target, so a
link whose stored target escapes the jail is created successfully, and
the escape is only rejected later, when the link is traversed. -/
theorem c9_symlink_stores_target (vb : String) (fs : FS) (target link : List String)
    (rel : Bool) (lp : String) (h : fsPathM vb fs link true = .ok lp) :
    symlinkCall vb fs target link rel =
      .ok ((if rel then "" else vb ++ "/") ++ String.intercalate "/" target, lp) ∧
    symlinkCall "/root" fsEscape ["..", ".."] ["l2"] true = .ok ("../..", "/root/l2") ∧
    fsPathM "/root" fsEscape ["lnk"] true =
      .error (.vfs ⟨"path outside base directory", "EINVAL", none⟩) := by
  refine ⟨?_, by decide, by decide⟩
  unfold symlinkCall
  rw [h]

theorem c9_symlink_stores_target_witness :
    (symlinkCall "/root" fsEscape ["..", ".."] ["l2"] true =
      .ok ((if true then "" else "/root" ++ "/") ++ String.intercalate "/" ["..", ".."],
        "/root/l2") ∧
    symlinkCall "/root" fsEscape ["..", ".."] ["l2"] true = .ok ("../..", "/root/l2") ∧
    fsPathM "/root" fsEscape ["lnk"] true =
      .error (.vfs ⟨"path outside base directory", "EINVAL", none⟩)) :=
  c9_symlink_stores_target "/root" fsEscape ["..", ".."] ["l2"] true "/root/l2" (by decide)

theorem follow_done_eq (fs : FS) (vb : String) (tl : Bool) (hl : Nat)
    (work : List String) (p : String) (strict : Bool)
    (r : Except Thrown (Option String))
    (hs : seek fs vb work p strict = .done r) :
    follow fs vb tl hl work p strict = (r, 0) := by
  cases hl with
  | zero => simp only [follow, hs]
  | succ hl' => simp only [follow, hs]

theorem follow_hop_rel_eq (fs : FS) (vb : String) (tl : Bool) (hl' : Nat)
    (work : List String) (p : String) (strict : Bool)
    (child t : String) (rest : List String) (pNow : String)
    (hs : seek fs vb work p strict = .hop child t rest pNow)
    (hb : ¬(tl = false ∧ rest = [])) (ha : isAbsolute t = false) :
    follow fs vb tl (hl' + 1) work p strict =
      ((follow fs vb tl hl' ((pathSplit t ++ rest).drop 1) pNow true).1,
       (follow fs vb tl hl' ((pathSplit t ++ rest).drop 1) pNow true).2 + 1) := by
  simp only [follow, hs]
  rw [if_neg hb, if_neg (by simp [ha])]

/-- With `/root/x` a symlink whose stored target is `./sub` — a target
form whose dropped index-0 component is only the harmless `.` —
`_removeFile` unlinks the link itself (`/root/x`, resolved with the
final symlink not followed), `_readSymlink` reports the link's stored
target (resolved against the link's containing directory and rendered
as `/sub`), and `_realPath` resolves through the final symlink to the
ultimate target `/root/sub` (rendered `/sub`). -/
theorem final_symlink_modes_dot_target (fs : FS)
    (h1 : fs.readlink "/root/x" = .link "./sub")
    (h2 : fs.readlink "/root/sub" = .fail einvalNotLink)
    (h3 : fs.realpath "/root/sub" = .ok "/root/sub") :
    removeFileCall "/root" fs ["x"] = .ok "/root/x" ∧
    readSymlinkM "/root" fs ["x"] = .ok "/sub" ∧
    realPathM "/root" fs ["x"] = .ok "/sub" := by
  have hx : ("/root" ++ "/" ++ "x" : String) = "/root/x" := rfl
  have hsub : ("/root" ++ "/" ++ "sub" : String) = "/root/sub" := rfl
  have step1 : seek fs "/root" ["x"] "/root" true = .hop "/root/x" "./sub" [] "/root" := by
    simp +decide [seek, hx, h1]
  have step3 : seek fs "/root" ["sub"] "/root" true = .done (.ok (some "/root/sub")) := by
    simp +decide [seek, hsub, h2, einvalNotLink]
  have hfs : fsPathM "/root" fs ["x"] false = .ok "/root/x" := by
    unfold fsPathM validatePath
    simp +decide [follow, step1]
  have g1 : follow fs "/root" true 40 ["x"] "/root" true =
      ((follow fs "/root" true 39 ["sub"] "/root" true).1,
       (follow fs "/root" true 39 ["sub"] "/root" true).2 + 1) := by
    have h := follow_hop_rel_eq fs "/root" true 39 ["x"] "/root" true
      "/root/x" "./sub" [] "/root" step1 (by decide) (by decide)
    rw [show ((pathSplit "./sub" ++ ([] : List String)).drop 1) = ["sub"] from rfl] at h
    exact h
  have g2 : follow fs "/root" true 39 ["sub"] "/root" true = (.ok (some "/root/sub"), 0) :=
    follow_done_eq fs "/root" true 39 ["sub"] "/root" true _ step3
  have hfs2 : fsPathM "/root" fs ["x"] true = .ok "/root/sub" := by
    unfold fsPathM validatePath
    rw [if_neg (by decide), g1, g2]
  refine ⟨?_, ?_, ?_⟩
  · unfold removeFileCall
    rw [hfs]
  · unfold readSymlinkM
    rw [hfs]
    simp only [h1]
    decide
  · unfold realPathM
    rw [hfs2]
    simp only [h3]
    decide

theorem final_symlink_modes_dot_target_check :
    removeFileCall "/root" fsLinkX ["x"] = .ok "/root/x" ∧
    readSymlinkM "/root" fsLinkX ["x"] = .ok "/sub" ∧
    realPathM "/root" fsLinkX ["x"] = .ok "/sub" :=
  final_symlink_modes_dot_target fsLinkX rfl rfl rfl

/-- A symlink `/root/x` whose stored target is the bare relative name
`sub`, where `/root/sub` is a real directory entry. -/
def fsBareSub : FS :=
  ⟨fun p => if p = "/root/x" then .link "sub"
            else if p = "/root/sub" then .fail einvalNotLink
            else .fail enoent,
   fun _ => none, fun p => .ok p⟩

/-- C6 (the code at the failing input): with `/root/x` a symlink whose
stored target is the bare relative name `sub`, `_removeFile` and
`_readSymlink` do act on the link itself (unlinking `/root/x` and
reporting `/sub`), but `_realPath` — although it resolves with the final
symlink followed — does not act on the ultimate target `/root/sub`: the
substitution drops the target's first component (the same
index-0 skip as in C2), the resolution ends at the link's containing
directory `/root`, and `_realPath` returns `/` instead of `/sub`. -/
theorem c6_realpath_link_parent :
    removeFileCall "/root" fsBareSub ["x"] = .ok "/root/x" ∧
    readSymlinkM "/root" fsBareSub ["x"] = .ok "/sub" ∧
    realPathM "/root" fsBareSub ["x"] = .ok "/" ∧
    ¬ realPathM "/root" fsBareSub ["x"] = .ok "/sub" := by decide

/-- C7: per native event and registration, the predicate is tested on
the absolute-style presentation first and on the relative-style
presentation only if the absolute form did not match; the callback fires
at most once per event (the fan-out produces one optional notification
per registration), with the first matching form and the change type, and
a registration matching neither form gets no notification. -/
theorem c7_watch_first_match (vb : String) (cbs : List (String → Bool))
    (evPath ty abs rel : String) (out : List (Option (String × String)))
    (i : Nat) (cb : String → Bool)
    (hAbs : relPathM vb evPath true = .ok abs)
    (hRel : relPathM vb evPath false = .ok rel)
    (hout : onWatchEventFires vb cbs evPath ty = .ok out)
    (hi : cbs.get? i = some cb) :
    out.length = cbs.length ∧
    out.get? i = some (fireFor cb abs rel ty) ∧
    (cb abs = true → fireFor cb abs rel ty = some (abs, ty)) ∧
    (cb abs = false → cb rel = true → fireFor cb abs rel ty = some (rel, ty)) ∧
    (cb abs = false → cb rel = false → fireFor cb abs rel ty = none) := by
  unfold onWatchEventFires at hout
  rw [hAbs, hRel] at hout
  simp only [Except.ok.injEq] at hout
  subst hout
  refine ⟨by simp, ?_, ?_, ?_, ?_⟩
  · rw [List.get?_map, hi]
    rfl
  · intro h
    simp [fireFor, h]
  · intro ha hr
    simp [fireFor, ha, hr]
  · intro ha hr
    simp [fireFor, ha, hr]

/-- One concrete watch predicate: matches exactly the absolute form
`/x`. -/
def watchPredA : String → Bool := fun s => s == "/x"

theorem c7_watch_first_match_witness :
    ([some (("/x", "update"))] : List (Option (String × String))).length =
      [watchPredA].length ∧
    ([some (("/x", "update"))] : List (Option (String × String))).get? 0 =
      some (fireFor watchPredA "/x" "./x" "update") ∧
    (watchPredA "/x" = true →
      fireFor watchPredA "/x" "./x" "update" = some ("/x", "update")) ∧
    (watchPredA "/x" = false → watchPredA "./x" = true →
      fireFor watchPredA "/x" "./x" "update" = some ("./x", "update")) ∧
    (watchPredA "/x" = false → watchPredA "./x" = false →
      fireFor watchPredA "/x" "./x" "update" = none) :=
  c7_watch_first_match "/root" [watchPredA] "/root/x" "update" "/x" "./x"
    [some ("/x", "update")] 0 watchPredA (by decide) (by decide)
    (by decide) rfl

end SocketVFS
